import Mathlib

/-
Verification development for the escama event-sourcing core.

Shallow embedding of the Go source:
  - Go time.Time is modelled as an integer timestamp (nanoseconds); the
    zero value of time.Time corresponds to 0, t.Before/t.After are < on
    integers, and time.AddDate(0,0,n) adds n * 86400e9 nanoseconds.
  - Go float64 is modelled as an opaque carrier that distinguishes finite
    values from NaN and the infinities; no claim performs float arithmetic,
    while encoding/json.Marshal fails exactly on non-finite float64 values.
  - The textual timestamp encoding produced by encoding/json and consumed
    by time.Parse is modelled as an injective layout-tagged rendering; a
    parse with a layout inverts exactly the rendering tagged with the same
    layout, and every other string fails, mirroring the format/parse pair.
  - map[string]interface{} payloads are association lists of dynamically
    typed scalar values; Go maps keyed by aggregate id are association
    lists with a lookup that defaults to nil (the zero slice).
  - Errors are Option String result components: none is a nil error.
-/

namespace Escama

/-- Go time.Time, as an integer timestamp. The zero time is 0. -/
abbrev Time := Int

def zeroTime : Time := 0

/-- t.Before(u) for time.Time values. -/
def timeBefore (t u : Time) : Bool := decide (t < u)

/-- t.After(u) for time.Time values. -/
def timeAfter (t u : Time) : Bool := decide (u < t)

/-- t.IsZero() for time.Time values. -/
def timeIsZero (t : Time) : Bool := decide (t = 0)

/-- Nanoseconds per day, for the AddDate(0, 0, n) model. -/
def nsPerDay : Int := 86400000000000

/-- t.AddDate(0, 0, n), modelled as adding n days of nanoseconds. -/
def addDays (t : Time) (n : Int) : Time := t + n * nsPerDay

/-- Go float64: an opaque finite carrier plus the non-finite values on which
encoding/json.Marshal fails. No claim computes with float values. -/
inductive Float64 where
  | finite : Int → Float64
  | nan : Float64
  | posInf : Float64
  | negInf : Float64
deriving DecidableEq

def Float64.isFinite : Float64 → Bool
  | .finite _ => true
  | _ => false

/-- A dynamically typed scalar in a map[string]interface{} payload, as
produced by json.Unmarshal (str, float64V, null) or by placing Go values
into the map directly (float32V, intV, int64V, timeV, ptrStr). -/
inductive PValue where
  | str : String → PValue
  | float64V : Float64 → PValue
  | float32V : Float64 → PValue
  | intV : Int → PValue
  | int64V : Int → PValue
  | timeV : Time → PValue
  | ptrStr : Option String → PValue
  | null : PValue
deriving DecidableEq

/-- A map[string]interface{} payload, as an association list. -/
abbrev Payload := List (String × PValue)

/-- Lookup of a key in a payload map (first binding wins). -/
def payloadGet : Payload → String → Option PValue
  | [], _ => none
  | (k, v) :: rest, key => if k = key then some v else payloadGet rest key

/-- The closed union of domain event variants (domain/events). Each carries
its business fields and its occurrence timestamp (the Occurred field). -/
inductive DomainEvent where
  | categoryCreated (categoryID name : String) (occurred : Time)
  | expenseCreated (expenseID categoryID : String) (amount : Float64)
      (description : Option String) (date occurred : Time)
  | expenseUpdated (expenseID categoryID : String) (amount : Float64)
      (description : Option String) (date occurred : Time)
  | expenseDeleted (expenseID : String) (occurred : Time)
  | incomeCreated (incomeID categoryID : String) (amount : Float64)
      (description : Option String) (date occurred : Time)
  | incomeUpdated (incomeID categoryID : String) (amount : Float64)
      (description : Option String) (date occurred : Time)
  | incomeDeleted (incomeID : String) (occurred : Time)
deriving DecidableEq

/-- EventType() of each variant. -/
def DomainEvent.eventType : DomainEvent → String
  | .categoryCreated _ _ _ => "CategoryCreated"
  | .expenseCreated _ _ _ _ _ _ => "ExpenseCreated"
  | .expenseUpdated _ _ _ _ _ _ => "ExpenseUpdated"
  | .expenseDeleted _ _ => "ExpenseDeleted"
  | .incomeCreated _ _ _ _ _ _ => "IncomeCreated"
  | .incomeUpdated _ _ _ _ _ _ => "IncomeUpdated"
  | .incomeDeleted _ _ => "IncomeDeleted"

/-- OccurredAt() of each variant. -/
def DomainEvent.occurredAt : DomainEvent → Time
  | .categoryCreated _ _ occ => occ
  | .expenseCreated _ _ _ _ _ occ => occ
  | .expenseUpdated _ _ _ _ _ occ => occ
  | .expenseDeleted _ occ => occ
  | .incomeCreated _ _ _ _ _ occ => occ
  | .incomeUpdated _ _ _ _ _ occ => occ
  | .incomeDeleted _ occ => occ

/-- events.StoredEvent: the log's representation of one event. -/
structure StoredEvent where
  id : String
  aggregateID : String
  aggregateType : String
  eventType : String
  payload : Payload
  occurredAt : Time
deriving DecidableEq

/-- The Go reference layout string of time.RFC3339. -/
def rfc3339Layout : String := "2006-01-02T15:04:05Z07:00"

/-- The decimal digit character of n (for n < 10). -/
def natDigitChar (n : Nat) : Char :=
  if n = 0 then '0' else if n = 1 then '1' else if n = 2 then '2'
  else if n = 3 then '3' else if n = 4 then '4' else if n = 5 then '5'
  else if n = 6 then '6' else if n = 7 then '7' else if n = 8 then '8'
  else '9'

/-- Decimal digits of a natural number, most significant first (fuel
makes the recursion structural). -/
def natToCharsAux : Nat → Nat → List Char → List Char
  | 0, _, acc => acc
  | fuel + 1, n, acc =>
      if n < 10 then natDigitChar n :: acc
      else natToCharsAux fuel (n / 10) (natDigitChar (n % 10) :: acc)

def natToChars (n : Nat) : List Char := natToCharsAux (n + 1) n []

/-- Decimal rendering of an integer as characters. -/
def intToChars : Int → List Char
  | Int.ofNat n => natToChars n
  | Int.negSucc m => '-' :: natToChars (m + 1)

/-- The decimal value of a digit character, none otherwise. -/
def digitToNat? (c : Char) : Option Nat :=
  if c = '0' then some 0 else if c = '1' then some 1 else if c = '2' then some 2
  else if c = '3' then some 3 else if c = '4' then some 4 else if c = '5' then some 5
  else if c = '6' then some 6 else if c = '7' then some 7 else if c = '8' then some 8
  else if c = '9' then some 9 else none

/-- Parse a run of decimal digits (most significant first). -/
def parseNatCharsAux : Nat → List Char → Option Nat
  | acc, [] => some acc
  | acc, c :: cs =>
      match digitToNat? c with
      | some d => parseNatCharsAux (acc * 10 + d) cs
      | none => none

/-- Parse an optionally negated digit run as an integer. -/
def parseIntChars : List Char → Option Int
  | [] => none
  | c :: cs =>
      if c = '-' then (parseNatCharsAux 0 cs).map (fun n => -(n : Int))
      else (parseNatCharsAux 0 (c :: cs)).map (fun n => (n : Int))

/-- Strip an expected leading character run, returning the remainder. -/
def charsStripLead : List Char → List Char → Option (List Char)
  | [], rest => some rest
  | _ :: _, [] => none
  | p :: ps, c :: cs => if p = c then charsStripLead ps cs else none

/-- Model of the textual timestamp rendering used by encoding/json for
time.Time values: an injective rendering tagged with the RFC3339 layout. -/
def renderTime (t : Time) : String :=
  String.mk (rfc3339Layout.data ++ '|' :: intToChars t)

/-- Model of time.Parse(layout, s): inverts exactly the rendering tagged
with the same layout; any other string fails to parse. -/
def timeParseLayout (layout s : String) : Option Time :=
  match charsStripLead (layout.data ++ ['|']) s.data with
  | some rest => parseIntChars rest
  | none => none

/-- Whether json.Marshal fails on this event: it does exactly when the
event carries a non-finite float64 Amount. -/
def serializeFails : DomainEvent → Bool
  | .categoryCreated _ _ _ => false
  | .expenseCreated _ _ a _ _ _ => !a.isFinite
  | .expenseUpdated _ _ a _ _ _ => !a.isFinite
  | .expenseDeleted _ _ => false
  | .incomeCreated _ _ a _ _ _ => !a.isFinite
  | .incomeUpdated _ _ a _ _ _ => !a.isFinite
  | .incomeDeleted _ _ => false

/-- The payload produced by serializeEvent (json.Marshal then Unmarshal
into a map) when it succeeds. Key names follow each struct's json tags;
IncomeCreated has no tags, so its Go field names are used and its nil
Description marshals to null instead of being omitted. -/
def serializeEvent : DomainEvent → Payload
  | .categoryCreated cid name occ =>
      [("category_id", .str cid), ("name", .str name),
       ("occurred", .str (renderTime occ))]
  | .expenseCreated eid cid a d date occ =>
      [("expense_id", .str eid), ("category_id", .str cid),
       ("amount", .float64V a)]
      ++ (match d with | some s => [("description", .str s)] | none => [])
      ++ [("date", .str (renderTime date)), ("occurred", .str (renderTime occ))]
  | .expenseUpdated eid cid a d date occ =>
      [("expense_id", .str eid), ("category_id", .str cid),
       ("amount", .float64V a)]
      ++ (match d with | some s => [("description", .str s)] | none => [])
      ++ [("date", .str (renderTime date)), ("occurred", .str (renderTime occ))]
  | .expenseDeleted eid occ =>
      [("expense_id", .str eid), ("occurred", .str (renderTime occ))]
  | .incomeCreated iid cid a d date occ =>
      [("IncomeID", .str iid), ("CategoryID", .str cid), ("Amount", .float64V a),
       ("Description", match d with | some s => .str s | none => .null),
       ("Date", .str (renderTime date)), ("Occurred", .str (renderTime occ))]
  | .incomeUpdated iid cid a d date occ =>
      [("income_id", .str iid), ("category_id", .str cid),
       ("amount", .float64V a)]
      ++ (match d with | some s => [("description", .str s)] | none => [])
      ++ [("date", .str (renderTime date)), ("occurred", .str (renderTime occ))]
  | .incomeDeleted iid occ =>
      [("income_id", .str iid), ("occurred", .str (renderTime occ))]

/-- InMemoryEventStore: per-aggregate streams (a Go map, modelled as an
association list whose lookup defaults to the empty stream) plus the
global allEvents list. -/
structure InMemoryEventStore where
  events : List (String × List StoredEvent)
  allEvents : List StoredEvent
deriving DecidableEq

def newInMemoryEventStore : InMemoryEventStore := ⟨[], []⟩

/-- Lookup s.events[aggregateID]; a missing key is the nil slice. -/
def streamsGet : List (String × List StoredEvent) → String → List StoredEvent
  | [], _ => []
  | (k, v) :: rest, key => if k = key then v else streamsGet rest key

/-- s.events[aggregateID] = v (map assignment). -/
def streamsSet : List (String × List StoredEvent) → String → List StoredEvent →
    List (String × List StoredEvent)
  | [], key, v => [(key, v)]
  | (k, w) :: rest, key, v =>
      if k = key then (key, v) :: rest else (k, w) :: streamsSet rest key v

/-- One iteration of InMemoryEventStore.Store's loop after serialization
succeeded: build the StoredEvent (its id embeds the current stream length)
and append it to the stream and to the global list. -/
def inMemStoreOne (s : InMemoryEventStore) (aggregateID aggregateType : String)
    (e : DomainEvent) : InMemoryEventStore :=
  let stream := streamsGet s.events aggregateID
  let stored : StoredEvent :=
    { id := aggregateID ++ "-" ++ toString stream.length
      aggregateID := aggregateID
      aggregateType := aggregateType
      eventType := e.eventType
      payload := serializeEvent e
      occurredAt := e.occurredAt }
  { events := streamsSet s.events aggregateID (stream ++ [stored])
    allEvents := s.allEvents ++ [stored] }

/-- InMemoryEventStore.Store: serialize and append each event in turn;
a serialization failure returns the error immediately, leaving the events
appended so far in place. -/
def inMemStore (s : InMemoryEventStore) (aggregateID aggregateType : String) :
    List DomainEvent → InMemoryEventStore × Option String
  | [] => (s, none)
  | e :: rest =>
      if serializeFails e then (s, some "failed to serialize event")
      else inMemStore (inMemStoreOne s aggregateID aggregateType e)
        aggregateID aggregateType rest

/-- InMemoryEventStore.Load: the stream for the identifier, the empty
sequence when the identifier is unknown; never an error. -/
def inMemLoad (s : InMemoryEventStore) (aggregateID : String) : List StoredEvent :=
  streamsGet s.events aggregateID

/-- InMemoryEventStore.GetAllEvents: keep each event unless a supplied
start bound has occurredAt before it or a supplied end bound has
occurredAt after it; never an error. -/
def inMemGetAllEvents (s : InMemoryEventStore) (startDate endDate : Option Time) :
    List StoredEvent :=
  s.allEvents.filter (fun e =>
    !(match startDate with
      | some sd => timeBefore e.occurredAt sd
      | none => false) &&
    !(match endDate with
      | some ed => timeAfter e.occurredAt ed
      | none => false))

/-- domain.Expense: the write-side aggregate, with its transient
uncommitted-events list. domain.Income is structurally identical. -/
structure Expense where
  id : String
  categoryID : String
  amount : Float64
  description : Option String
  date : Time
  uncommitted : List DomainEvent
deriving DecidableEq

/-- domain.Income. -/
structure Income where
  id : String
  categoryID : String
  amount : Float64
  description : Option String
  date : Time
  uncommitted : List DomainEvent
deriving DecidableEq

/-- domain.NewExpense: build the aggregate and emit the ExpenseCreated
event; the clock read time.Now().UTC() is the explicit parameter now. -/
def NewExpense (id categoryID : String) (amount : Float64)
    (description : Option String) (date now : Time) : Expense :=
  { id := id, categoryID := categoryID, amount := amount
    description := description, date := date
    uncommitted := [DomainEvent.expenseCreated id categoryID amount description date now] }

/-- Expense.Update: overwrite the mutable fields and append an
ExpenseUpdated event (its Occurred timestamp is the parameter now). -/
def Expense.update (e : Expense) (categoryID : String) (amount : Float64)
    (description : Option String) (date now : Time) : Expense :=
  { e with categoryID := categoryID, amount := amount
           description := description, date := date
           uncommitted := e.uncommitted ++
             [DomainEvent.expenseUpdated e.id categoryID amount description date now] }

/-- Expense.Delete: append an ExpenseDeleted event; fields unchanged. -/
def Expense.delete (e : Expense) (now : Time) : Expense :=
  { e with uncommitted := e.uncommitted ++ [DomainEvent.expenseDeleted e.id now] }

/-- domain.NewIncome. -/
def NewIncome (id categoryID : String) (amount : Float64)
    (description : Option String) (date now : Time) : Income :=
  { id := id, categoryID := categoryID, amount := amount
    description := description, date := date
    uncommitted := [DomainEvent.incomeCreated id categoryID amount description date now] }

/-- Income.Update. -/
def Income.update (i : Income) (categoryID : String) (amount : Float64)
    (description : Option String) (date now : Time) : Income :=
  { i with categoryID := categoryID, amount := amount
           description := description, date := date
           uncommitted := i.uncommitted ++
             [DomainEvent.incomeUpdated i.id categoryID amount description date now] }

/-- Income.Delete. -/
def Income.delete (i : Income) (now : Time) : Income :=
  { i with uncommitted := i.uncommitted ++ [DomainEvent.incomeDeleted i.id now] }

/-- ExpenseRepository.Save against the in-memory store: no uncommitted
events is a no-op success; on append failure the error is returned and the
aggregate (its uncommitted list included) is untouched; on success the
uncommitted list is cleared. The store component carries whatever Store
left behind. -/
def expenseSave (s : InMemoryEventStore) (e : Expense) :
    InMemoryEventStore × Expense × Option String :=
  if e.uncommitted.length = 0 then (s, e, none)
  else
    match inMemStore s e.id "Expense" e.uncommitted with
    | (s1, some msg) => (s1, e, some msg)
    | (s1, none) => (s1, { e with uncommitted := [] }, none)

/-- IncomeRepository.Save. -/
def incomeSave (s : InMemoryEventStore) (i : Income) :
    InMemoryEventStore × Income × Option String :=
  if i.uncommitted.length = 0 then (s, i, none)
  else
    match inMemStore s i.id "Income" i.uncommitted with
    | (s1, some msg) => (s1, i, some msg)
    | (s1, none) => (s1, { i with uncommitted := [] }, none)

/-
Payload helper functions. ExpenseRepository, IncomeRepository and
ProjectionStore each carry a textually identical copy of these four
helpers; they are embedded once.
-/

/-- getStringFromPayload: first key bound to a string value wins (keys
bound to non-string values are skipped); absent keys yield "". -/
def getStringFromPayload (payload : Payload) : List String → String
  | [] => ""
  | k :: rest =>
      match payloadGet payload k with
      | some (.str s) => s
      | _ => getStringFromPayload payload rest

/-- getFloat64FromPayload: accepts float64, float32, int and int64 values,
coerced to float64; other values and absent keys are skipped; default 0. -/
def getFloat64FromPayload (payload : Payload) : List String → Float64
  | [] => .finite 0
  | k :: rest =>
      match payloadGet payload k with
      | some (.float64V x) => x
      | some (.float32V x) => x
      | some (.intV n) => .finite n
      | some (.int64V n) => .finite n
      | _ => getFloat64FromPayload payload rest

/-- getStringPtrFromPayload: first key bound to a non-empty string wins;
an empty string or a non-string value falls through to the next key. -/
def getStringPtrFromPayload (payload : Payload) : List String → Option String
  | [] => none
  | k :: rest =>
      match payloadGet payload k with
      | some (.str s) =>
          if s = "" then getStringPtrFromPayload payload rest else some s
      | _ => getStringPtrFromPayload payload rest

/-- The fallback layout list tried after time.RFC3339. -/
def goTimeFormats : List String :=
  ["2006-01-02T15:04:05Z07:00", "2006-01-02T15:04:05.000Z",
   "2006-01-02T15:04:05", "2006-01-02 15:04:05", "2006-01-02"]

/-- Try each fallback layout in order. -/
def tryFormats (s : String) : List String → Option Time
  | [] => none
  | f :: rest =>
      match timeParseLayout f s with
      | some t => some t
      | none => tryFormats s rest

/-- The switch body of getTimeFromPayload on one payload value: a string
is parsed with RFC3339 then the fallback layouts; a time.Time value is
returned as is; any other value matches no case. -/
def parseTimeValue : PValue → Option Time
  | .str s =>
      match timeParseLayout rfc3339Layout s with
      | some t => some t
      | none => tryFormats s goTimeFormats
  | .timeV t => some t
  | _ => none

/-- getTimeFromPayload: first key whose value yields a time wins; a key
whose value yields none (unparsable string or wrong type) falls through
to the next key; the default is the zero time. -/
def getTimeFromPayload (payload : Payload) : List String → Time
  | [] => zeroTime
  | k :: rest =>
      match payloadGet payload k with
      | some v =>
          match parseTimeValue v with
          | some t => t
          | none => getTimeFromPayload payload rest
      | none => getTimeFromPayload payload rest

/-- ExpenseRepository.applyExpenseCreated: read the fields under both key
conventions; a zero parsed date falls back to the event's OccurredAt. -/
def applyExpenseCreated (e : Expense) (se : StoredEvent) : Expense :=
  let categoryID := getStringFromPayload se.payload ["CategoryID", "category_id"]
  let amount := getFloat64FromPayload se.payload ["Amount", "amount"]
  let description := getStringPtrFromPayload se.payload ["Description", "description"]
  let date0 := getTimeFromPayload se.payload ["Date", "date"]
  let date := if timeIsZero date0 then se.occurredAt else date0
  { e with categoryID := categoryID, amount := amount
           description := description, date := date }

/-- ExpenseRepository.applyExpenseUpdated: same field reads, but with no
fallback on a zero parsed date. -/
def applyExpenseUpdated (e : Expense) (se : StoredEvent) : Expense :=
  let categoryID := getStringFromPayload se.payload ["CategoryID", "category_id"]
  let amount := getFloat64FromPayload se.payload ["Amount", "amount"]
  let description := getStringPtrFromPayload se.payload ["Description", "description"]
  let date := getTimeFromPayload se.payload ["Date", "date"]
  { e with categoryID := categoryID, amount := amount
           description := description, date := date }

/-- IncomeRepository.applyIncomeCreated (with the OccurredAt fallback). -/
def applyIncomeCreated (i : Income) (se : StoredEvent) : Income :=
  let categoryID := getStringFromPayload se.payload ["CategoryID", "category_id"]
  let amount := getFloat64FromPayload se.payload ["Amount", "amount"]
  let description := getStringPtrFromPayload se.payload ["Description", "description"]
  let date0 := getTimeFromPayload se.payload ["Date", "date"]
  let date := if timeIsZero date0 then se.occurredAt else date0
  { i with categoryID := categoryID, amount := amount
           description := description, date := date }

/-- IncomeRepository.applyIncomeUpdated (no fallback). -/
def applyIncomeUpdated (i : Income) (se : StoredEvent) : Income :=
  let categoryID := getStringFromPayload se.payload ["CategoryID", "category_id"]
  let amount := getFloat64FromPayload se.payload ["Amount", "amount"]
  let description := getStringPtrFromPayload se.payload ["Description", "description"]
  let date := getTimeFromPayload se.payload ["Date", "date"]
  { i with categoryID := categoryID, amount := amount
           description := description, date := date }

/-- The replay loop of ExpenseRepository.GetByID: fold the stream over the
optional aggregate. A Created event initializes the aggregate when absent
(the Go zero value with the requested id) and applies; an Updated event
before any Created event is the out-of-order replay error; Deleted and
unrecognized event kinds change nothing. The apply helpers always return
a nil error in the source, so their error wrapping never fires. -/
def replayExpense (id : String) : List StoredEvent → Option Expense →
    Except String (Option Expense)
  | [], acc => Except.ok acc
  | se :: rest, acc =>
      if se.eventType = "ExpenseCreated" then
        let e := match acc with
          | none => { id := id, categoryID := "", amount := .finite 0
                      description := none, date := zeroTime, uncommitted := [] }
          | some e => e
        replayExpense id rest (some (applyExpenseCreated e se))
      else if se.eventType = "ExpenseUpdated" then
        match acc with
        | none =>
            Except.error
              ("received ExpenseUpdated event before ExpenseCreated for expense " ++ id)
        | some e => replayExpense id rest (some (applyExpenseUpdated e se))
      else
        replayExpense id rest acc

/-- ExpenseRepository.GetByID: load the stream; an empty stream is an
absent aggregate with no error; otherwise replay, and clear the
uncommitted list of the reconstructed aggregate. -/
def expenseGetByID (s : InMemoryEventStore) (id : String) :
    Except String (Option Expense) :=
  let storedEvents := inMemLoad s id
  if storedEvents.length = 0 then Except.ok none
  else
    match replayExpense id storedEvents none with
    | Except.error msg => Except.error msg
    | Except.ok none => Except.ok none
    | Except.ok (some e) => Except.ok (some { e with uncommitted := [] })

/-- The replay loop of IncomeRepository.GetByID. -/
def replayIncome (id : String) : List StoredEvent → Option Income →
    Except String (Option Income)
  | [], acc => Except.ok acc
  | se :: rest, acc =>
      if se.eventType = "IncomeCreated" then
        let i := match acc with
          | none => { id := id, categoryID := "", amount := .finite 0
                      description := none, date := zeroTime, uncommitted := [] }
          | some i => i
        replayIncome id rest (some (applyIncomeCreated i se))
      else if se.eventType = "IncomeUpdated" then
        match acc with
        | none =>
            Except.error
              ("received IncomeUpdated event before IncomeCreated for income " ++ id)
        | some i => replayIncome id rest (some (applyIncomeUpdated i se))
      else
        replayIncome id rest acc

/-- IncomeRepository.GetByID. -/
def incomeGetByID (s : InMemoryEventStore) (id : String) :
    Except String (Option Income) :=
  let storedEvents := inMemLoad s id
  if storedEvents.length = 0 then Except.ok none
  else
    match replayIncome id storedEvents none with
    | Except.error msg => Except.error msg
    | Except.ok none => Except.ok none
    | Except.ok (some i) => Except.ok (some { i with uncommitted := [] })

/-- projections.MovementProjection. -/
structure MovementProjection where
  id : String
  type : String
  categoryID : String
  categoryName : String
  amount : Float64
  description : Option String
  date : Time
  createdAt : Time
  updatedAt : Time
  isDeleted : Bool
deriving DecidableEq

/-- projections.CategoryProjection. -/
structure CategoryProjection where
  id : String
  name : String
  createdAt : Time
  updatedAt : Time
  isDeleted : Bool
deriving DecidableEq

/-- A Mongo collection keyed by _id, as an association list of documents. -/
abbrev Collec (α : Type) := List (String × α)

/-- FindOne by _id. -/
def colFind? {α : Type} : Collec α → String → Option α
  | [], _ => none
  | (k, v) :: rest, key => if k = key then some v else colFind? rest key

/-- ReplaceOne by _id with SetUpsert(true): replace the matching document
in place, or insert when absent. -/
def colUpsert {α : Type} : Collec α → String → α → Collec α
  | [], key, v => [(key, v)]
  | (k, w) :: rest, key, v =>
      if k = key then (key, v) :: rest else (k, w) :: colUpsert rest key v

/-- UpdateOne by _id: apply the update to the matching document; matching
no document changes nothing and is not an error. -/
def colUpdate {α : Type} : Collec α → String → (α → α) → Collec α
  | [], _, _ => []
  | (k, w) :: rest, key, f =>
      if k = key then (k, f w) :: rest else (k, w) :: colUpdate rest key f

/-- The two read-model collections of projections.ProjectionStore. -/
structure ProjectionState where
  movements : Collec MovementProjection
  categories : Collec CategoryProjection
deriving DecidableEq

def emptyProjectionState : ProjectionState := ⟨[], []⟩

/-- ProjectionStore.handleCategoryCreated: validate, then upsert the
category projection keyed by the category identifier. -/
def handleCategoryCreated (ps : ProjectionState) (se : StoredEvent) :
    ProjectionState × Option String :=
  let categoryID := getStringFromPayload se.payload ["CategoryID", "category_id"]
  let name := getStringFromPayload se.payload ["Name", "name"]
  if categoryID = "" || name = "" then
    (ps, some "invalid category created event: missing required fields")
  else
    let category : CategoryProjection :=
      { id := categoryID, name := name, createdAt := se.occurredAt
        updatedAt := se.occurredAt, isDeleted := false }
    ({ ps with categories := colUpsert ps.categories categoryID category }, none)

/-- ProjectionStore.handleMovementCreated: resolve the category name from
the current category projections (absent resolves to the sentinel label),
fall back to OccurredAt for a zero date, and upsert the movement keyed by
the movement identifier. -/
def handleMovementCreated (ps : ProjectionState) (se : StoredEvent)
    (movementType : String) : ProjectionState × Option String :=
  let movementID :=
    if movementType = "expense" then
      getStringFromPayload se.payload ["ExpenseID", "expense_id"]
    else
      getStringFromPayload se.payload ["IncomeID", "income_id"]
  let categoryID := getStringFromPayload se.payload ["CategoryID", "category_id"]
  let amount := getFloat64FromPayload se.payload ["Amount", "amount"]
  let description := getStringPtrFromPayload se.payload ["Description", "description"]
  let date0 := getTimeFromPayload se.payload ["Date", "date"]
  if movementID = "" then
    (ps, some ("invalid " ++ movementType ++ " created event: missing ID"))
  else
    let date := if timeIsZero date0 then se.occurredAt else date0
    let categoryName :=
      if categoryID = "" then "Sin categoría"
      else
        match colFind? ps.categories categoryID with
        | some category => category.name
        | none => "Sin categoría"
    let movement : MovementProjection :=
      { id := movementID, type := movementType, categoryID := categoryID
        categoryName := categoryName, amount := amount, description := description
        date := date, createdAt := se.occurredAt, updatedAt := se.occurredAt
        isDeleted := false }
    ({ ps with movements := colUpsert ps.movements movementID movement }, none)

/-- ProjectionStore.handleMovementUpdated: set the mutable fields of the
matching movement document; UpdateOne matching no document changes
nothing and reports no error. -/
def handleMovementUpdated (ps : ProjectionState) (se : StoredEvent)
    (movementType : String) : ProjectionState × Option String :=
  let movementID :=
    if movementType = "expense" then
      getStringFromPayload se.payload ["ExpenseID", "expense_id"]
    else
      getStringFromPayload se.payload ["IncomeID", "income_id"]
  if movementID = "" then
    (ps, some ("invalid " ++ movementType ++ " updated event: missing ID"))
  else
    let categoryID := getStringFromPayload se.payload ["CategoryID", "category_id"]
    let amount := getFloat64FromPayload se.payload ["Amount", "amount"]
    let description := getStringPtrFromPayload se.payload ["Description", "description"]
    let date := getTimeFromPayload se.payload ["Date", "date"]
    let categoryName :=
      if categoryID = "" then "Sin categoría"
      else
        match colFind? ps.categories categoryID with
        | some category => category.name
        | none => "Sin categoría"
    ({ ps with movements := colUpdate ps.movements movementID (fun m =>
        { m with categoryID := categoryID, categoryName := categoryName
                 amount := amount, description := description, date := date
                 updatedAt := se.occurredAt }) }, none)

/-- ProjectionStore.handleMovementDeleted: soft delete on the matching
movement document; UpdateOne matching no document changes nothing and
reports no error. -/
def handleMovementDeleted (ps : ProjectionState) (se : StoredEvent)
    (movementType : String) : ProjectionState × Option String :=
  let movementID :=
    if movementType = "expense" then
      getStringFromPayload se.payload ["ExpenseID", "expense_id"]
    else
      getStringFromPayload se.payload ["IncomeID", "income_id"]
  if movementID = "" then
    (ps, some ("invalid " ++ movementType ++ " deleted event: missing ID"))
  else
    ({ ps with movements := colUpdate ps.movements movementID (fun m =>
        { m with isDeleted := true, updatedAt := se.occurredAt }) }, none)

/-- ProjectionStore.ProcessEvent: dispatch on the event-kind tag; an
unknown tag is logged and skipped with no error. -/
def processEvent (ps : ProjectionState) (se : StoredEvent) :
    ProjectionState × Option String :=
  if se.eventType = "CategoryCreated" then handleCategoryCreated ps se
  else if se.eventType = "ExpenseCreated" then handleMovementCreated ps se "expense"
  else if se.eventType = "IncomeCreated" then handleMovementCreated ps se "income"
  else if se.eventType = "ExpenseUpdated" then handleMovementUpdated ps se "expense"
  else if se.eventType = "IncomeUpdated" then handleMovementUpdated ps se "income"
  else if se.eventType = "ExpenseDeleted" then handleMovementDeleted ps se "expense"
  else if se.eventType = "IncomeDeleted" then handleMovementDeleted ps se "income"
  else (ps, none)

/-- The events collection of MongoEventStore, as a document list. -/
abbrev MongoCollection := List StoredEvent

/-- The document-building loop of MongoEventStore.Store: serialize every
event first; any failure aborts with none. The log-assigned id embeds the
clock read time.Now().UnixNano(), modelled by the parameter now. -/
def mongoBuildDocs (aggregateID aggregateType : String) (now : Time) :
    List DomainEvent → Option (List StoredEvent)
  | [] => some []
  | e :: rest =>
      if serializeFails e then none
      else
        (mongoBuildDocs aggregateID aggregateType now rest).map (fun docs =>
          { id := aggregateID ++ "-" ++ toString now
            aggregateID := aggregateID
            aggregateType := aggregateType
            eventType := e.eventType
            payload := serializeEvent e
            occurredAt := e.occurredAt } :: docs)

/-- MongoEventStore.Store: serialize the whole batch before inserting; a
serialization failure returns the error with nothing inserted; an empty
batch is a no-op success; otherwise InsertMany appends all documents. -/
def mongoStore (col : MongoCollection) (now : Time)
    (aggregateID aggregateType : String) (domainEvents : List DomainEvent) :
    MongoCollection × Option String :=
  match mongoBuildDocs aggregateID aggregateType now domainEvents with
  | none => (col, some "failed to serialize event")
  | some docs => if docs.length = 0 then (col, none) else (col ++ docs, none)

/-- startDate.Format("2006-01-02"): the day rendering of a bound, as an
injective layout-tagged rendering of the day number. -/
def formatDay (t : Time) : String :=
  String.mk (("2006-01-02").data ++ '|' :: intToChars (t / nsPerDay))

/-- Whether a payload value satisfies the string day-bound conditions of
the $or filter: comparison operators in the document store are
type-bracketed, so only string values compare with string bounds
(lexicographically). -/
def pvMatchStrRange (gteBound ltBound : Option String) (v : PValue) : Bool :=
  match v with
  | .str s =>
      (match gteBound with | some b => decide (b ≤ s) | none => true) &&
      (match ltBound with | some b => decide (s < b) | none => true)
  | _ => false

/-- Whether a payload value satisfies the timestamp-typed range clause
(present only when both bounds are supplied): only time values compare. -/
def pvMatchTimeRange (a b : Time) (v : PValue) : Bool :=
  match v with
  | .timeV t => decide (a ≤ t) && decide (t ≤ b)
  | _ => false

/-- The $or filter of MongoEventStore.GetAllEvents applied to one payload:
the Date and date fields are tested against the day-string bounds, and,
when both bounds are supplied, also against the timestamp range ending a
nanosecond before the following day. With no bounds every document
matches. The occurrence timestamp is never consulted by the filter. -/
def mongoDateMatch (startDate endDate : Option Time) (payload : Payload) : Bool :=
  match startDate, endDate with
  | none, none => true
  | _, _ =>
      let gteBound := startDate.map formatDay
      let ltBound := endDate.map (fun ed => formatDay (addDays ed 1))
      let strMatch := fun (key : String) =>
        match payloadGet payload key with
        | some v => pvMatchStrRange gteBound ltBound v
        | none => false
      let timeMatch := fun (key : String) =>
        match startDate, endDate with
        | some sd, some ed =>
            (match payloadGet payload key with
             | some v => pvMatchTimeRange sd (addDays ed 1 - 1) v
             | none => false)
        | _, _ => false
      strMatch "Date" || strMatch "date" || timeMatch "Date" || timeMatch "date"

/-- MongoEventStore.GetAllEvents: the matching documents, sorted by
occurrence timestamp descending. -/
def mongoGetAllEvents (col : MongoCollection) (startDate endDate : Option Time) :
    List StoredEvent :=
  (col.filter (fun se => mongoDateMatch startDate endDate se.payload)).mergeSort
    (fun a b => decide (b.occurredAt ≤ a.occurredAt))

/-- CreateExpenseHandler.Handle wired as in the program: Save is the
expense repository over the in-memory store and Publish records the event
list it receives. The result carries the store, the list handed to
Publish (none when Publish was never reached) and the returned error.
The handler publishes expense.UncommittedEvents() read back after Save. -/
def createExpenseHandle (s : InMemoryEventStore) (id categoryID : String)
    (amount : Float64) (description : Option String) (date now : Time) :
    InMemoryEventStore × Option (List DomainEvent) × Option String :=
  let expense := NewExpense id categoryID amount description date now
  match expenseSave s expense with
  | (s1, _, some msg) => (s1, none, some msg)
  | (s1, saved, none) => (s1, some saved.uncommitted, none)

/-- The claim-relevant view of a stored event: its event-kind tag, its
serialized payload and its occurrence timestamp (the log-assigned id is
not part of the round-trip claim). -/
def storedView (se : StoredEvent) : String × Payload × Time :=
  (se.eventType, se.payload, se.occurredAt)

/-- The same view computed from a domain event: what the log is expected
to hold for it. -/
def eventView (e : DomainEvent) : String × Payload × Time :=
  (e.eventType, serializeEvent e, e.occurredAt)

/-- One append (Store) call: an aggregate identifier, its type tag and
the batch of events committed in that call. -/
structure StoreCall where
  aggregateID : String
  aggregateType : String
  events : List DomainEvent
deriving DecidableEq

/-- Run a sequence of Store calls against the in-memory store; as in the
command loop, the first failing call stops the run with its error. -/
def runStores (s : InMemoryEventStore) : List StoreCall →
    InMemoryEventStore × Option String
  | [] => (s, none)
  | c :: rest =>
      match inMemStore s c.aggregateID c.aggregateType c.events with
      | (s1, some msg) => (s1, some msg)
      | (s1, none) => runStores s1 rest

/-- All events appended for one identifier across a call sequence, in
append order. -/
def eventsFor (id : String) : List StoreCall → List DomainEvent
  | [] => []
  | c :: rest =>
      (if c.aggregateID = id then c.events else []) ++ eventsFor id rest

/-- Whether, scanning a stream in order, an event of the updated kind
occurs before any event of the created kind. -/
def hasUpdatedBeforeCreated (createdType updatedType : String) :
    List StoredEvent → Bool
  | [] => false
  | se :: rest =>
      if se.eventType = createdType then false
      else if se.eventType = updatedType then true
      else hasUpdatedBeforeCreated createdType updatedType rest

/-- The spec-side inclusive-bounds predicate for queryAll: a supplied
start bound demands start ≤ occurredAt and a supplied end bound demands
occurredAt ≤ end; an omitted bound removes that side of the filter. -/
def occInBounds (startDate endDate : Option Time) (t : Time) : Bool :=
  (match startDate with | some sd => decide (sd ≤ t) | none => true) &&
  (match endDate with | some ed => decide (t ≤ ed) | none => true)

/-
Concrete inputs used by the counterexamples and witnesses below.
-/

/-- A two-event batch whose second event fails serialization (a NaN
float64 amount makes json.Marshal error). -/
def cxBatch2 : List DomainEvent :=
  [DomainEvent.expenseCreated "e1" "c1" (Float64.finite 5) none 1 2,
   DomainEvent.expenseCreated "e1" "c1" Float64.nan none 3 4]

/-- A stored ExpenseCreated event with a parsable date field. -/
def cxCreated3 : StoredEvent :=
  { id := "e1-0", aggregateID := "e1", aggregateType := "Expense"
    eventType := "ExpenseCreated"
    payload := [("expense_id", PValue.str "e1"), ("category_id", PValue.str "c1"),
                ("amount", PValue.float64V (Float64.finite 5)),
                ("date", PValue.str (renderTime 100))]
    occurredAt := 3 }

/-- A stored ExpenseUpdated event whose payload has no date field. -/
def cxUpdated3 : StoredEvent :=
  { id := "e1-1", aggregateID := "e1", aggregateType := "Expense"
    eventType := "ExpenseUpdated"
    payload := [("expense_id", PValue.str "e1"), ("category_id", PValue.str "c1"),
                ("amount", PValue.float64V (Float64.finite 7))]
    occurredAt := 7 }

/-- A store whose stream for e1 is the created event then the dateless
updated event. -/
def cxStore3 : InMemoryEventStore :=
  ⟨[("e1", [cxCreated3, cxUpdated3])], [cxCreated3, cxUpdated3]⟩

/-- A stored ExpenseUpdated event referencing movement m1. -/
def cxMovementUpdated4 : StoredEvent :=
  { id := "m1-1", aggregateID := "m1", aggregateType := "Expense"
    eventType := "ExpenseUpdated"
    payload := [("expense_id", PValue.str "m1"), ("category_id", PValue.str "c1"),
                ("amount", PValue.float64V (Float64.finite 9)),
                ("date", PValue.str (renderTime 50))]
    occurredAt := 5 }

/-- Three successful Store calls over two aggregate streams. -/
def wCalls5 : List StoreCall :=
  [⟨"a", "Expense", [DomainEvent.expenseCreated "a" "c1" (Float64.finite 5) none 1 2]⟩,
   ⟨"b", "Income", [DomainEvent.incomeCreated "b" "c2" (Float64.finite 6) (some "d") 3 4]⟩,
   ⟨"a", "Expense", [DomainEvent.expenseUpdated "a" "c1" (Float64.finite 8) none 5 6,
                     DomainEvent.expenseDeleted "a" 7]⟩]

/-- The store reached by the three calls of wCalls5. -/
def wStore5 : InMemoryEventStore := (runStores newInMemoryEventStore wCalls5).1

/-- A stream whose first event is an update: out-of-order for expense
replay. -/
def wOutOfOrder6 : StoredEvent :=
  { id := "z-0", aggregateID := "z", aggregateType := "Expense"
    eventType := "ExpenseUpdated"
    payload := [("expense_id", PValue.str "z")]
    occurredAt := 1 }

/-- An out-of-order income update event. -/
def wOutOfOrderInc6 : StoredEvent :=
  { id := "y-0", aggregateID := "y", aggregateType := "Income"
    eventType := "IncomeUpdated"
    payload := [("IncomeID", PValue.str "y")]
    occurredAt := 1 }

/-- A store holding the two corrupt streams of C6 and nothing for w. -/
def wStore6 : InMemoryEventStore :=
  ⟨[("z", [wOutOfOrder6]), ("y", [wOutOfOrderInc6])], [wOutOfOrder6, wOutOfOrderInc6]⟩

/-- An expense with one uncommitted event. -/
def wExpense7 : Expense :=
  NewExpense "e7" "c7" (Float64.finite 11) none 8 9

/-- An expense whose single uncommitted event cannot be serialized. -/
def wBadExpense7 : Expense :=
  NewExpense "e7" "c7" Float64.nan none 8 9

/-- An income with one uncommitted event. -/
def wIncome7 : Income :=
  NewIncome "i7" "c7" (Float64.finite 12) none 8 9

/-- A stored CategoryCreated event. -/
def wCategoryCreated9 : StoredEvent :=
  { id := "c9-0", aggregateID := "c9", aggregateType := "Category"
    eventType := "CategoryCreated"
    payload := [("category_id", PValue.str "c9"), ("name", PValue.str "Food")]
    occurredAt := 2 }

/-- A stored ExpenseCreated event referencing the category c9. -/
def wExpenseCreated9 : StoredEvent :=
  { id := "m9-0", aggregateID := "m9", aggregateType := "Expense"
    eventType := "ExpenseCreated"
    payload := [("expense_id", PValue.str "m9"), ("category_id", PValue.str "c9"),
                ("amount", PValue.float64V (Float64.finite 40)),
                ("date", PValue.str (renderTime 30))]
    occurredAt := 6 }

/-- A store with one created expense stream, for the C10 witness. -/
def wStore10 : InMemoryEventStore :=
  ⟨[("e1", [cxCreated3])], [cxCreated3]⟩

/-- The expense reconstructed from the single created event of wStore10. -/
def wReconstructed10 : Expense :=
  { id := "e1", categoryID := "c1", amount := Float64.finite 5
    description := none, date := 100, uncommitted := [] }

deriving instance DecidableEq for Except

/-
Support lemmas (shared; none of these is a claim's theorem).
-/

theorem streamsGet_streamsSet (m : List (String × List StoredEvent))
    (a id : String) (v : List StoredEvent) :
    streamsGet (streamsSet m a v) id = if a = id then v else streamsGet m id := by
  induction m with
  | nil =>
      by_cases h : a = id <;> simp [streamsSet, streamsGet, h]
  | cons kw rest ih =>
      obtain ⟨k, w⟩ := kw
      by_cases hk : k = a
      · subst hk
        by_cases hid : k = id <;> simp [streamsSet, streamsGet, hid]
      · by_cases hid : k = id
        · subst hid
          have hai : ¬ a = k := fun h => hk h.symm
          simp [streamsSet, streamsGet, hk, hai, ih]
        · simp [streamsSet, streamsGet, hk, hid, ih]

theorem inMemLoad_inMemStoreOne (s : InMemoryEventStore)
    (a t : String) (e : DomainEvent) (id : String) :
    inMemLoad (inMemStoreOne s a t e) id =
      inMemLoad s id ++
        (if a = id then
          [{ id := a ++ "-" ++ toString (streamsGet s.events a).length
             aggregateID := a, aggregateType := t, eventType := e.eventType
             payload := serializeEvent e, occurredAt := e.occurredAt }]
         else []) := by
  by_cases h : a = id
  · subst h
    simp [inMemLoad, inMemStoreOne, streamsGet_streamsSet]
  · simp [inMemLoad, inMemStoreOne, streamsGet_streamsSet, h]

theorem inMemStore_ok_loadView (evs : List DomainEvent) (s : InMemoryEventStore)
    (a t : String) (s1 : InMemoryEventStore)
    (h : inMemStore s a t evs = (s1, none)) (id : String) :
    (inMemLoad s1 id).map storedView =
      (inMemLoad s id).map storedView ++
        (if a = id then evs.map eventView else []) := by
  induction evs generalizing s with
  | nil =>
      simp only [inMemStore] at h
      cases h
      by_cases hid : a = id <;> simp [hid]
  | cons e rest ih =>
      simp only [inMemStore] at h
      by_cases hf : serializeFails e
      · simp [hf] at h
      · simp only [hf, if_false, Bool.false_eq_true] at h
        have step := ih (inMemStoreOne s a t e) h
        rw [step, inMemLoad_inMemStoreOne]
        by_cases hid : a = id
        · simp [hid, storedView, eventView, List.append_assoc]
        · simp [hid]

theorem runStores_ok_loadView (calls : List StoreCall) (s s1 : InMemoryEventStore)
    (h : runStores s calls = (s1, none)) (id : String) :
    (inMemLoad s1 id).map storedView =
      (inMemLoad s id).map storedView ++ (eventsFor id calls).map eventView := by
  induction calls generalizing s with
  | nil =>
      simp only [runStores] at h
      cases h
      simp [eventsFor]
  | cons c rest ih =>
      simp only [runStores] at h
      rcases hs : inMemStore s c.aggregateID c.aggregateType c.events with ⟨s2, o⟩
      rw [hs] at h
      cases o with
      | some msg => simp at h
      | none =>
          simp only at h
          have step := inMemStore_ok_loadView c.events s c.aggregateID
            c.aggregateType s2 hs id
          have tail := ih s2 h
          rw [tail, step, eventsFor]
          by_cases hid : c.aggregateID = id
          · simp [hid, List.append_assoc]
          · simp [hid]

theorem colUpsert_idem {α : Type} (c : Collec α) (k : String) (v : α) :
    colUpsert (colUpsert c k v) k v = colUpsert c k v := by
  induction c with
  | nil => simp [colUpsert]
  | cons kw rest ih =>
      obtain ⟨k1, w⟩ := kw
      by_cases h : k1 = k
      · simp [colUpsert, h]
      · simp [colUpsert, h, ih]

theorem colUpdate_of_missing {α : Type} (c : Collec α) (k : String) (f : α → α)
    (h : colFind? c k = none) : colUpdate c k f = c := by
  induction c with
  | nil => simp [colUpdate]
  | cons kw rest ih =>
      obtain ⟨k1, w⟩ := kw
      by_cases hk : k1 = k
      · simp [colFind?, hk] at h
      · simp only [colFind?, hk, if_false] at h
        simp [colUpdate, hk, ih h]

theorem bound_pred_eq (startDate endDate : Option Time) (t : Time) :
    (!(match startDate with
       | some sd => timeBefore t sd
       | none => false) &&
     !(match endDate with
       | some ed => timeAfter t ed
       | none => false)) = occInBounds startDate endDate t := by
  rcases startDate with _ | sd <;> rcases endDate with _ | ed
  · rfl
  · rw [Bool.eq_iff_iff]
    simp [timeBefore, timeAfter, occInBounds, Int.not_lt]
  · rw [Bool.eq_iff_iff]
    simp [timeBefore, timeAfter, occInBounds, Int.not_lt]
  · rw [Bool.eq_iff_iff]
    simp [timeBefore, timeAfter, occInBounds, Int.not_lt]

theorem replayExpense_out_of_order (id : String) (evs : List StoredEvent)
    (h : hasUpdatedBeforeCreated "ExpenseCreated" "ExpenseUpdated" evs = true) :
    replayExpense id evs none =
      Except.error
        ("received ExpenseUpdated event before ExpenseCreated for expense " ++ id) := by
  induction evs with
  | nil => simp [hasUpdatedBeforeCreated] at h
  | cons se rest ih =>
      by_cases hc : se.eventType = "ExpenseCreated"
      · simp [hasUpdatedBeforeCreated, hc] at h
      · by_cases hu : se.eventType = "ExpenseUpdated"
        · simp [replayExpense, hc, hu]
        · simp only [hasUpdatedBeforeCreated, hc, hu, if_false] at h
          simp [replayExpense, hc, hu, ih h]

theorem replayIncome_out_of_order (id : String) (evs : List StoredEvent)
    (h : hasUpdatedBeforeCreated "IncomeCreated" "IncomeUpdated" evs = true) :
    replayIncome id evs none =
      Except.error
        ("received IncomeUpdated event before IncomeCreated for income " ++ id) := by
  induction evs with
  | nil => simp [hasUpdatedBeforeCreated] at h
  | cons se rest ih =>
      by_cases hc : se.eventType = "IncomeCreated"
      · simp [hasUpdatedBeforeCreated, hc] at h
      · by_cases hu : se.eventType = "IncomeUpdated"
        · simp [replayIncome, hc, hu]
        · simp only [hasUpdatedBeforeCreated, hc, hu, if_false] at h
          simp [replayIncome, hc, hu, ih h]

theorem mongoBuildDocs_failure (a t : String) (now : Time)
    (evs : List DomainEvent) (e : DomainEvent) (he : e ∈ evs)
    (hf : serializeFails e = true) :
    mongoBuildDocs a t now evs = none := by
  induction evs with
  | nil => cases he
  | cons x rest ih =>
      by_cases hx : serializeFails x
      · simp [mongoBuildDocs, hx]
      · rcases List.mem_cons.mp he with rfl | hrest
        · exact absurd hf (by simp [hx])
        · simp [mongoBuildDocs, hx, ih hrest]

theorem inMemStore_append_failure (pre : List DomainEvent)
    (s : InMemoryEventStore) (a t : String) (bad : DomainEvent)
    (rest : List DomainEvent) (hpre : ∀ e ∈ pre, serializeFails e = false)
    (hbad : serializeFails bad = true) :
    inMemStore s a t (pre ++ bad :: rest) =
      ((inMemStore s a t pre).1, some "failed to serialize event") := by
  induction pre generalizing s with
  | nil => simp [inMemStore, hbad]
  | cons x xs ih =>
      have hx : serializeFails x = false := hpre x (List.mem_cons_self x xs)
      simp only [List.cons_append, inMemStore, hx, Bool.false_eq_true, if_false]
      exact ih (inMemStoreOne s a t x) (fun e he => hpre e (List.mem_cons_of_mem x he))

theorem handleMovementUpdated_missing_expense (ps : ProjectionState)
    (se : StoredEvent)
    (hmid : getStringFromPayload se.payload ["ExpenseID", "expense_id"] ≠ "")
    (hfind : colFind? ps.movements
      (getStringFromPayload se.payload ["ExpenseID", "expense_id"]) = none) :
    handleMovementUpdated ps se "expense" = (ps, none) := by
  simp [handleMovementUpdated, hmid, colUpdate_of_missing _ _ _ hfind]

theorem handleMovementUpdated_missing_income (ps : ProjectionState)
    (se : StoredEvent)
    (hmid : getStringFromPayload se.payload ["IncomeID", "income_id"] ≠ "")
    (hfind : colFind? ps.movements
      (getStringFromPayload se.payload ["IncomeID", "income_id"]) = none) :
    handleMovementUpdated ps se "income" = (ps, none) := by
  simp [handleMovementUpdated, hmid, colUpdate_of_missing _ _ _ hfind]

theorem handleMovementDeleted_missing_expense (ps : ProjectionState)
    (se : StoredEvent)
    (hmid : getStringFromPayload se.payload ["ExpenseID", "expense_id"] ≠ "")
    (hfind : colFind? ps.movements
      (getStringFromPayload se.payload ["ExpenseID", "expense_id"]) = none) :
    handleMovementDeleted ps se "expense" = (ps, none) := by
  simp [handleMovementDeleted, hmid, colUpdate_of_missing _ _ _ hfind]

theorem handleMovementDeleted_missing_income (ps : ProjectionState)
    (se : StoredEvent)
    (hmid : getStringFromPayload se.payload ["IncomeID", "income_id"] ≠ "")
    (hfind : colFind? ps.movements
      (getStringFromPayload se.payload ["IncomeID", "income_id"]) = none) :
    handleMovementDeleted ps se "income" = (ps, none) := by
  simp [handleMovementDeleted, hmid, colUpdate_of_missing _ _ _ hfind]

/-
Claim theorems.
-/

/-- C1: the claim says that after a successful save the handler forwards
to the publisher exactly the events appended to the log. In the code,
Save clears the aggregate's uncommitted list before Handle reads it back,
so Publish receives the empty list although the log committed the
ExpenseCreated event: evaluated here on a concrete CreateExpense command
against the empty store. -/
theorem createExpense_save_then_publish_forwards_empty_list :
    (createExpenseHandle newInMemoryEventStore "e1" "c1" (Float64.finite 50000)
      none 10 20).2.1 = some [] ∧
    (inMemLoad (createExpenseHandle newInMemoryEventStore "e1" "c1"
      (Float64.finite 50000) none 10 20).1 "e1").map storedView =
      [eventView (DomainEvent.expenseCreated "e1" "c1" (Float64.finite 50000)
        none 10 20)] := by
  decide

/-- C2 counterexample: a two-event batch whose second event fails
serialization leaves the in-memory store changed (the first event was
appended) although the call reports the serialization error, refuting the
all-or-nothing reading of Store. -/
theorem inMemStore_partial_append_on_serialization_failure :
    (inMemStore newInMemoryEventStore "e1" "Expense" cxBatch2).2 =
      some "failed to serialize event" ∧
    (inMemStore newInMemoryEventStore "e1" "Expense" cxBatch2).1.allEvents.length = 1 ∧
    (inMemStore newInMemoryEventStore "e1" "Expense" cxBatch2).1 ≠
      newInMemoryEventStore := by
  decide

/-- C2 (amended): a serialization failure anywhere in the batch makes
Store return the serialization error and append none of the events from
the failing one onward; the in-memory store keeps the already-serialized
events preceding the failure, while the Mongo store serializes the whole
batch before inserting and appends nothing at all. -/
theorem store_serialization_failure_aborts_batch :
    (∀ (s : InMemoryEventStore) (a t : String) (pre : List DomainEvent)
       (bad : DomainEvent) (rest : List DomainEvent),
       (∀ e ∈ pre, serializeFails e = false) → serializeFails bad = true →
       inMemStore s a t (pre ++ bad :: rest) =
         ((inMemStore s a t pre).1, some "failed to serialize event")) ∧
    (∀ (col : MongoCollection) (now : Time) (a t : String)
       (evs : List DomainEvent) (e : DomainEvent), e ∈ evs →
       serializeFails e = true →
       mongoStore col now a t evs = (col, some "failed to serialize event")) := by
  constructor
  · intro s a t pre bad rest hpre hbad
    exact inMemStore_append_failure pre s a t bad rest hpre hbad
  · intro col now a t evs e he hf
    simp [mongoStore, mongoBuildDocs_failure a t now evs e he hf]

theorem store_serialization_failure_aborts_batch_witness :
    serializeFails (DomainEvent.expenseCreated "e1" "c1" Float64.nan none 3 4) = true ∧
    inMemStore newInMemoryEventStore "e1" "Expense" cxBatch2 =
      ((inMemStore newInMemoryEventStore "e1" "Expense"
        [DomainEvent.expenseCreated "e1" "c1" (Float64.finite 5) none 1 2]).1,
       some "failed to serialize event") ∧
    mongoStore [] 99 "e1" "Expense" cxBatch2 =
      ([], some "failed to serialize event") :=
  ⟨by decide,
   store_serialization_failure_aborts_batch.1 newInMemoryEventStore "e1" "Expense"
     [DomainEvent.expenseCreated "e1" "c1" (Float64.finite 5) none 1 2]
     (DomainEvent.expenseCreated "e1" "c1" Float64.nan none 3 4) []
     (by decide) (by decide),
   store_serialization_failure_aborts_batch.2 [] 99 "e1" "Expense" cxBatch2
     (DomainEvent.expenseCreated "e1" "c1" Float64.nan none 3 4)
     (by decide) (by decide)⟩

/-- C3 counterexample: replaying a stream whose ExpenseUpdated event has
no date field leaves the reconstructed Date at the zero time, not at that
event's occurrence timestamp 7, refuting the claim for Updated events. -/
theorem expense_updated_without_date_reconstructs_zero_date :
    expenseGetByID cxStore3 "e1" =
      Except.ok (some { id := "e1", categoryID := "c1", amount := Float64.finite 7,
                        description := none, date := zeroTime, uncommitted := [] }) ∧
    cxUpdated3.occurredAt = 7 ∧ zeroTime ≠ (7 : Time) :=
  ⟨rfl, rfl, by decide⟩

/-- C3 (amended): the fall-back to the event's occurrence timestamp on an
absent or unparsable payload date applies only to Created events; the
Updated apply functions set the Date field to the parse result, the zero
time. -/
theorem date_fallback_only_for_created_events :
    ∀ (e : Expense) (i : Income) (se : StoredEvent),
      getTimeFromPayload se.payload ["Date", "date"] = zeroTime →
      (applyExpenseCreated e se).date = se.occurredAt ∧
      (applyExpenseUpdated e se).date = zeroTime ∧
      (applyIncomeCreated i se).date = se.occurredAt ∧
      (applyIncomeUpdated i se).date = zeroTime := by
  intro e i se h
  refine ⟨?_, ?_, ?_, ?_⟩ <;>
    simp [applyExpenseCreated, applyExpenseUpdated, applyIncomeCreated,
          applyIncomeUpdated, h, timeIsZero, zeroTime]

theorem date_fallback_only_for_created_events_witness :
    getTimeFromPayload cxUpdated3.payload ["Date", "date"] = zeroTime ∧
    (applyExpenseCreated
      { id := "e1", categoryID := "", amount := Float64.finite 0,
        description := none, date := zeroTime, uncommitted := [] }
      cxUpdated3).date = cxUpdated3.occurredAt ∧
    (applyExpenseUpdated
      { id := "e1", categoryID := "", amount := Float64.finite 0,
        description := none, date := zeroTime, uncommitted := [] }
      cxUpdated3).date = zeroTime :=
  have h := date_fallback_only_for_created_events
    { id := "e1", categoryID := "", amount := Float64.finite 0,
      description := none, date := zeroTime, uncommitted := [] }
    { id := "i1", categoryID := "", amount := Float64.finite 0,
      description := none, date := zeroTime, uncommitted := [] }
    cxUpdated3 (by decide)
  ⟨by decide, h.1, h.2.1⟩

/-- C4 counterexample: processing an ExpenseUpdated stored event against
an empty projection state (no movement row for m1) returns success with
the state unchanged, refuting the claim that a reported error is
returned. -/
theorem projection_update_missing_row_returns_success :
    processEvent emptyProjectionState cxMovementUpdated4 =
      (emptyProjectionState, none) := by
  decide

/-- C4 (amended): when the movement projection row referenced by an
Updated or Deleted event does not exist, processEvent returns success
with the projection state unchanged: UpdateOne matches no document and
reports no error, so the divergence is silently ignored. -/
theorem projection_update_or_delete_missing_row_silent_noop :
    ∀ (ps : ProjectionState) (se : StoredEvent),
      ((se.eventType = "ExpenseUpdated" ∨ se.eventType = "ExpenseDeleted") →
        getStringFromPayload se.payload ["ExpenseID", "expense_id"] ≠ "" →
        colFind? ps.movements
          (getStringFromPayload se.payload ["ExpenseID", "expense_id"]) = none →
        processEvent ps se = (ps, none)) ∧
      ((se.eventType = "IncomeUpdated" ∨ se.eventType = "IncomeDeleted") →
        getStringFromPayload se.payload ["IncomeID", "income_id"] ≠ "" →
        colFind? ps.movements
          (getStringFromPayload se.payload ["IncomeID", "income_id"]) = none →
        processEvent ps se = (ps, none)) := by
  intro ps se
  constructor
  · intro hty hmid hfind
    rcases hty with h | h <;>
      simp [processEvent, h, handleMovementUpdated_missing_expense ps se hmid hfind,
        handleMovementDeleted_missing_expense ps se hmid hfind]
  · intro hty hmid hfind
    rcases hty with h | h <;>
      simp [processEvent, h, handleMovementUpdated_missing_income ps se hmid hfind,
        handleMovementDeleted_missing_income ps se hmid hfind]

theorem projection_update_or_delete_missing_row_silent_noop_witness :
    cxMovementUpdated4.eventType = "ExpenseUpdated" ∧
    processEvent emptyProjectionState cxMovementUpdated4 =
      (emptyProjectionState, none) :=
  ⟨by decide,
   (projection_update_or_delete_missing_row_silent_noop emptyProjectionState
     cxMovementUpdated4).1 (Or.inl (by decide)) (by decide) (by decide)⟩

/-- C5: after any sequence of successful Store calls against the fresh
in-memory store, Load returns for every identifier exactly the events
appended for it, in append order, each carrying the event's own
occurrence timestamp and its serialized payload; an identifier with no
appended events loads the empty sequence (and Load never errors, being
total). -/
theorem store_load_round_trip :
    ∀ (calls : List StoreCall) (s1 : InMemoryEventStore),
      runStores newInMemoryEventStore calls = (s1, none) →
      ∀ id : String,
        (inMemLoad s1 id).map storedView = (eventsFor id calls).map eventView ∧
        (eventsFor id calls = [] → inMemLoad s1 id = []) := by
  intro calls s1 h id
  have main := runStores_ok_loadView calls newInMemoryEventStore s1 h id
  have base : (inMemLoad newInMemoryEventStore id).map storedView = [] := rfl
  rw [base, List.nil_append] at main
  refine ⟨main, fun hempty => ?_⟩
  rw [hempty] at main
  simpa using List.map_eq_nil_iff.mp main

theorem store_load_round_trip_witness :
    runStores newInMemoryEventStore wCalls5 = (wStore5, none) ∧
    (inMemLoad wStore5 "a").map storedView = (eventsFor "a" wCalls5).map eventView :=
  have hrun : runStores newInMemoryEventStore wCalls5 = (wStore5, none) := rfl
  ⟨hrun, (store_load_round_trip wCalls5 wStore5 hrun "a").1⟩

/-- C6: replaying a stream in which an Updated event occurs before any
corresponding Created event makes GetByID return the out-of-order replay
error (and hence no aggregate), for the expense and the income
reconstructor alike; an empty stream yields an absent aggregate with no
error. -/
theorem getByID_out_of_order_error_and_empty_absent :
    ∀ (s : InMemoryEventStore) (id : String),
      (inMemLoad s id = [] →
        expenseGetByID s id = Except.ok none ∧
        incomeGetByID s id = Except.ok none) ∧
      (hasUpdatedBeforeCreated "ExpenseCreated" "ExpenseUpdated"
          (inMemLoad s id) = true →
        expenseGetByID s id =
          Except.error
            ("received ExpenseUpdated event before ExpenseCreated for expense " ++ id)) ∧
      (hasUpdatedBeforeCreated "IncomeCreated" "IncomeUpdated"
          (inMemLoad s id) = true →
        incomeGetByID s id =
          Except.error
            ("received IncomeUpdated event before IncomeCreated for income " ++ id)) := by
  intro s id
  refine ⟨fun h => ?_, fun h => ?_, fun h => ?_⟩
  · constructor <;> simp [expenseGetByID, incomeGetByID, h]
  · have hne : inMemLoad s id ≠ [] := by
      intro he
      rw [he] at h
      simp [hasUpdatedBeforeCreated] at h
    have hlen : ¬ (inMemLoad s id).length = 0 := by
      simpa [List.length_eq_zero] using hne
    simp [expenseGetByID, hlen, replayExpense_out_of_order id _ h]
  · have hne : inMemLoad s id ≠ [] := by
      intro he
      rw [he] at h
      simp [hasUpdatedBeforeCreated] at h
    have hlen : ¬ (inMemLoad s id).length = 0 := by
      simpa [List.length_eq_zero] using hne
    simp [incomeGetByID, hlen, replayIncome_out_of_order id _ h]

theorem getByID_out_of_order_error_and_empty_absent_witness :
    expenseGetByID wStore6 "z" =
      Except.error
        ("received ExpenseUpdated event before ExpenseCreated for expense " ++ "z") ∧
    incomeGetByID wStore6 "y" =
      Except.error
        ("received IncomeUpdated event before IncomeCreated for income " ++ "y") ∧
    expenseGetByID wStore6 "w" = Except.ok none :=
  ⟨(getByID_out_of_order_error_and_empty_absent wStore6 "z").2.1 (by decide),
   (getByID_out_of_order_error_and_empty_absent wStore6 "y").2.2 (by decide),
   ((getByID_out_of_order_error_and_empty_absent wStore6 "w").1 (by decide)).1⟩

/-- C7: repository save is a no-op success on an empty uncommitted list;
a failing append propagates the error and returns the aggregate with its
uncommitted list untouched; a successful append returns the aggregate
with the uncommitted list cleared — for the expense and the income
repository alike. -/
theorem repository_save_noop_error_and_clear :
    ∀ (s : InMemoryEventStore) (e : Expense) (i : Income),
      (e.uncommitted = [] → expenseSave s e = (s, e, none)) ∧
      (∀ s1 msg, inMemStore s e.id "Expense" e.uncommitted = (s1, some msg) →
        expenseSave s e = (s1, e, some msg)) ∧
      (∀ s1, e.uncommitted ≠ [] →
        inMemStore s e.id "Expense" e.uncommitted = (s1, none) →
        expenseSave s e = (s1, { e with uncommitted := [] }, none)) ∧
      (i.uncommitted = [] → incomeSave s i = (s, i, none)) ∧
      (∀ s1 msg, inMemStore s i.id "Income" i.uncommitted = (s1, some msg) →
        incomeSave s i = (s1, i, some msg)) ∧
      (∀ s1, i.uncommitted ≠ [] →
        inMemStore s i.id "Income" i.uncommitted = (s1, none) →
        incomeSave s i = (s1, { i with uncommitted := [] }, none)) := by
  intro s e i
  refine ⟨fun h => ?_, fun s1 msg h => ?_, fun s1 hne h => ?_,
          fun h => ?_, fun s1 msg h => ?_, fun s1 hne h => ?_⟩
  · simp [expenseSave, h]
  · cases hu : e.uncommitted with
    | nil => rw [hu] at h; simp [inMemStore] at h
    | cons x xs => rw [hu] at h; simp [expenseSave, hu, h]
  · cases hu : e.uncommitted with
    | nil => exact absurd hu hne
    | cons x xs => rw [hu] at h; simp [expenseSave, hu, h]
  · simp [incomeSave, h]
  · cases hu : i.uncommitted with
    | nil => rw [hu] at h; simp [inMemStore] at h
    | cons x xs => rw [hu] at h; simp [incomeSave, hu, h]
  · cases hu : i.uncommitted with
    | nil => exact absurd hu hne
    | cons x xs => rw [hu] at h; simp [incomeSave, hu, h]

theorem repository_save_noop_error_and_clear_witness :
    expenseSave newInMemoryEventStore
      { wExpense7 with uncommitted := [] } =
      (newInMemoryEventStore, { wExpense7 with uncommitted := [] }, none) ∧
    expenseSave newInMemoryEventStore wBadExpense7 =
      (newInMemoryEventStore, wBadExpense7, some "failed to serialize event") ∧
    expenseSave newInMemoryEventStore wExpense7 =
      ((inMemStore newInMemoryEventStore wExpense7.id "Expense"
         wExpense7.uncommitted).1,
       { wExpense7 with uncommitted := [] }, none) :=
  ⟨(repository_save_noop_error_and_clear newInMemoryEventStore
      { wExpense7 with uncommitted := [] } wIncome7).1 rfl,
   (repository_save_noop_error_and_clear newInMemoryEventStore
      wBadExpense7 wIncome7).2.1 newInMemoryEventStore
      "failed to serialize event" (by decide),
   (repository_save_noop_error_and_clear newInMemoryEventStore
      wExpense7 wIncome7).2.2.1
      ((inMemStore newInMemoryEventStore wExpense7.id "Expense"
         wExpense7.uncommitted).1) (by decide) rfl⟩

/-- C8 counterexample: a stored CategoryCreated event whose occurrence
timestamp lies inside the supplied bounds is not returned by the Mongo
GetAllEvents, because that variant filters on the payload's business
date fields (absent here), not on occurredAt — refuting the claim for
the persistent variant the claim also cites. -/
theorem mongo_getAllEvents_drops_inrange_occurredAt :
    occInBounds (some 0) (some (10 * nsPerDay)) wCategoryCreated9.occurredAt = true ∧
    mongoGetAllEvents [wCategoryCreated9] (some 0) (some (10 * nsPerDay)) = [] := by
  refine ⟨by decide, ?_⟩
  have hf : List.filter
      (fun se => mongoDateMatch (some 0) (some (10 * nsPerDay)) se.payload)
      [wCategoryCreated9] = [] := by decide
  unfold mongoGetAllEvents
  rw [hf, List.mergeSort_nil]

/-- C8 (amended): the in-memory GetAllEvents returns exactly the events
whose occurrence timestamp lies inclusively within the supplied bounds
(omitting a bound removes that side; the empty log yields the empty
sequence); the Mongo GetAllEvents instead selects by the payload date
fields through its day-bound filter, membership being independent of
occurredAt. -/
theorem getAllEvents_filter_semantics :
    (∀ (s : InMemoryEventStore) (startDate endDate : Option Time),
      inMemGetAllEvents s startDate endDate =
        s.allEvents.filter (fun se => occInBounds startDate endDate se.occurredAt)) ∧
    (∀ (col : MongoCollection) (startDate endDate : Option Time) (se : StoredEvent),
      se ∈ mongoGetAllEvents col startDate endDate ↔
        se ∈ col ∧ mongoDateMatch startDate endDate se.payload = true) := by
  constructor
  · intro s sd ed
    unfold inMemGetAllEvents
    exact List.filter_congr (fun se _ => bound_pred_eq sd ed se.occurredAt)
  · intro col sd ed se
    unfold mongoGetAllEvents
    rw [(List.mergeSort_perm _ _).mem_iff]
    exact List.mem_filter

theorem getAllEvents_filter_semantics_witness :
    inMemGetAllEvents cxStore3 (some 0) (some 5) =
      cxStore3.allEvents.filter (fun se => occInBounds (some 0) (some 5) se.occurredAt) ∧
    ((wCategoryCreated9 ∈ mongoGetAllEvents [wCategoryCreated9] none none) ↔
      (wCategoryCreated9 ∈ ([wCategoryCreated9] : MongoCollection) ∧
        mongoDateMatch none none wCategoryCreated9.payload = true)) :=
  ⟨getAllEvents_filter_semantics.1 cxStore3 (some 0) (some 5),
   getAllEvents_filter_semantics.2 [wCategoryCreated9] none none wCategoryCreated9⟩

theorem handleCategoryCreated_idem (ps : ProjectionState) (se : StoredEvent) :
    (handleCategoryCreated (handleCategoryCreated ps se).1 se).1 =
      (handleCategoryCreated ps se).1 := by
  by_cases hc : getStringFromPayload se.payload ["CategoryID", "category_id"] = ""
  · simp [handleCategoryCreated, hc]
  · by_cases hn : getStringFromPayload se.payload ["Name", "name"] = ""
    · simp [handleCategoryCreated, hc, hn]
    · simp [handleCategoryCreated, hc, hn, colUpsert_idem]

theorem handleMovementCreated_idem (ps : ProjectionState) (se : StoredEvent)
    (mty : String) :
    (handleMovementCreated (handleMovementCreated ps se mty).1 se mty).1 =
      (handleMovementCreated ps se mty).1 := by
  by_cases hm : (if mty = "expense" then
      getStringFromPayload se.payload ["ExpenseID", "expense_id"]
    else
      getStringFromPayload se.payload ["IncomeID", "income_id"]) = ""
  · simp [handleMovementCreated, hm]
  · simp [handleMovementCreated, hm, colUpsert_idem]

/-- C9: processing the same CategoryCreated, ExpenseCreated or
IncomeCreated stored event twice in succession through the projection
engine leaves the projection state exactly as processing it once: the
created-event handlers are idempotent upserts keyed by the entity
identifier (and their validation failures change nothing either time). -/
theorem created_event_projection_idempotent :
    ∀ (ps : ProjectionState) (se : StoredEvent),
      se.eventType = "CategoryCreated" ∨ se.eventType = "ExpenseCreated" ∨
        se.eventType = "IncomeCreated" →
      (processEvent (processEvent ps se).1 se).1 = (processEvent ps se).1 := by
  intro ps se hty
  rcases hty with h | h | h
  · simp [processEvent, h, handleCategoryCreated_idem]
  · simp [processEvent, h, handleMovementCreated_idem]
  · simp [processEvent, h, handleMovementCreated_idem]

theorem created_event_projection_idempotent_witness :
    wCategoryCreated9.eventType = "CategoryCreated" ∧
    wExpenseCreated9.eventType = "ExpenseCreated" ∧
    (processEvent (processEvent emptyProjectionState wCategoryCreated9).1
      wCategoryCreated9).1 = (processEvent emptyProjectionState wCategoryCreated9).1 ∧
    (processEvent (processEvent emptyProjectionState wExpenseCreated9).1
      wExpenseCreated9).1 = (processEvent emptyProjectionState wExpenseCreated9).1 :=
  ⟨by decide, by decide,
   created_event_projection_idempotent emptyProjectionState wCategoryCreated9
     (Or.inl (by decide)),
   created_event_projection_idempotent emptyProjectionState wExpenseCreated9
     (Or.inr (Or.inl (by decide)))⟩

/-- C10: an aggregate returned by GetByID always carries an empty
uncommitted-events list (replay produces no uncommitted events and the
repository clears the list before returning), so saving it immediately
afterwards is a no-op success against any store state. -/
theorem getByID_returns_no_uncommitted_events :
    ∀ (s : InMemoryEventStore) (id : String),
      (∀ e : Expense, expenseGetByID s id = Except.ok (some e) →
        e.uncommitted = [] ∧ ∀ s2, expenseSave s2 e = (s2, e, none)) ∧
      (∀ i : Income, incomeGetByID s id = Except.ok (some i) →
        i.uncommitted = [] ∧ ∀ s2, incomeSave s2 i = (s2, i, none)) := by
  intro s id
  constructor
  · intro e h
    simp only [expenseGetByID] at h
    by_cases hlen : (inMemLoad s id).length = 0
    · rw [if_pos hlen] at h
      simp at h
    · rw [if_neg hlen] at h
      cases hr : replayExpense id (inMemLoad s id) none with
      | error msg => rw [hr] at h; simp at h
      | ok oe =>
          rw [hr] at h
          cases oe with
          | none => simp at h
          | some e0 =>
              obtain rfl : ({ e0 with uncommitted := [] } : Expense) = e := by
                simpa using h
              exact ⟨rfl, fun s2 => by simp [expenseSave]⟩
  · intro i h
    simp only [incomeGetByID] at h
    by_cases hlen : (inMemLoad s id).length = 0
    · rw [if_pos hlen] at h
      simp at h
    · rw [if_neg hlen] at h
      cases hr : replayIncome id (inMemLoad s id) none with
      | error msg => rw [hr] at h; simp at h
      | ok oi =>
          rw [hr] at h
          cases oi with
          | none => simp at h
          | some i0 =>
              obtain rfl : ({ i0 with uncommitted := [] } : Income) = i := by
                simpa using h
              exact ⟨rfl, fun s2 => by simp [incomeSave]⟩

set_option maxRecDepth 4096 in
theorem getByID_returns_no_uncommitted_events_witness :
    expenseGetByID wStore10 "e1" = Except.ok (some wReconstructed10) ∧
    wReconstructed10.uncommitted = [] ∧
    expenseSave newInMemoryEventStore wReconstructed10 =
      (newInMemoryEventStore, wReconstructed10, none) :=
  have h : expenseGetByID wStore10 "e1" = Except.ok (some wReconstructed10) := by decide
  ⟨h, ((getByID_returns_no_uncommitted_events wStore10 "e1").1
        wReconstructed10 h).1,
   ((getByID_returns_no_uncommitted_events wStore10 "e1").1
      wReconstructed10 h).2 newInMemoryEventStore⟩

end Escama
